import Mathlib

/-
Shallow embedding of the training-loop scheduler of BaseAgent
(fqf_iqn_qrdqn/agent/base_agent.py).  External collaborators (the gym
environments, the online and target networks, the numpy random stream and
the learning step of the concrete subclass) are modelled as opaque function
records, following section 6 of the specification.  The `use_morl` global
toggle selects which collaborator supplies actions and transitions; the
embedding abstracts both behind the `Ext` record, so the scheduler logic
modelled here is the one shared by both paths (the line numbers cited in
the claims are the ones of the default path).

Machine reals (python floats) are modelled as rationals.  Bounded while
loops are modelled by structural recursion on an explicit fuel that is a
proven upper bound on the number of iterations; fixed-point equations are
derived as lemmas, so the fueled functions satisfy exactly the defining
equations of the source loops.
-/

set_option linter.unusedVariables false

namespace FQF

/-- Configuration constants received by BaseAgent.__init__
(base_agent.py lines 14-42).  `epsilon_train` is the terminal value of the
annealed training epsilon (the anneal starts at 1, line 120). -/
structure Config where
  num_steps : Nat
  update_interval : Nat
  target_update_interval : Nat
  start_steps : Nat
  epsilon_train : Rat
  epsilon_decay_steps : Nat
  epsilon_eval : Rat
  eval_interval : Nat
  num_eval_steps : Nat
  max_episode_steps : Nat
  noisy_net : Bool
  use_per : Bool

/-- Default values of the keyword arguments of BaseAgent.__init__
(base_agent.py lines 19-40). -/
def cfgDefault : Config where
  num_steps := 5 * 10 ^ 7
  update_interval := 4
  target_update_interval := 10000
  start_steps := 50000
  epsilon_train := 1 / 100
  epsilon_decay_steps := 250000
  epsilon_eval := 1 / 1000
  eval_interval := 250000
  num_eval_steps := 125000
  max_episode_steps := 27000
  noisy_net := false
  use_per := false

/-- External collaborators of the agent, kept opaque as in section 6 of the
specification: the training and test environments (observations encoded as
naturals, environments modelled as deterministic functions of the current
observation), the stream of `action_space.sample()` draws, the stream of
`np.random.rand()` draws (indexed by a counter threaded through the agent
state), the Q-value head of the online network (`calculate_q`), the
learning step of the concrete subclass (acting on the online parameters,
which are encoded as naturals) and the noise resampling of the network. -/
structure Ext where
  envReset : Nat
  envStep : Nat → Nat → Nat × Rat × Bool
  testReset : Nat
  testStep : Nat → Nat → Nat × Rat × Bool
  sampleAction : Nat → Nat
  rand : Nat → Rat
  qvalues : Nat → Nat → List Rat
  learnStep : Nat → Nat
  sampleNoise : Nat → Nat

/-- A raw transition as passed to `self.memory.append` in train_episode
(base_agent.py line 240). -/
structure Trans where
  state : Nat
  action : Nat
  reward : Rat
  next_state : Nat
  done : Bool

/-- Mutable state of BaseAgent.  The replay memory (an external class of
this repository, not under src/) is modelled as the log of the raw
transitions passed to its append method; the RunningMeanStats object is
modelled as the log of the returns passed to its append method;
`savedFinal` and `savedBest` count the calls to save_models on the final
and best model directories; `memoryBeta` records the beta_steps argument
passed to the prioritized memory at construction (line 73), when
prioritized replay is enabled. -/
structure AgentState where
  steps : Nat
  episodes : Nat
  best_eval_score : WithBot Rat
  epsilon_steps : Nat
  online : Nat
  target : Nat
  memory : List Trans
  train_return : List Rat
  randIdx : Nat
  sampleIdx : Nat
  savedFinal : Nat
  savedBest : Nat
  memoryBeta : Option Rat

/-- Modelled from the spec: LinearAnneaer from fqf_iqn_qrdqn/utils.py is
not under src/; section 4.3 of the specification gives
`get() = max(end, start - (start-end) * steps_taken/decay_steps)` with
start = 1 (base_agent.py line 120). -/
def epsilonTrainGet (cfg : Config) (t : Nat) : Rat :=
  max cfg.epsilon_train
    (1 - (1 - cfg.epsilon_train) * (t : Rat) / (cfg.epsilon_decay_steps : Rat))

/-- Index of the first maximum of a list (numpy argmax semantics), used to
model `.argmax()` on the Q-values in exploit (line 169). -/
def argmaxAux : List Rat → Nat → Nat → Rat → Nat
  | [], _, bi, _ => bi
  | v :: t, i, bi, bv =>
      if bv < v then argmaxAux t (i + 1) i v else argmaxAux t (i + 1) bi bv

/-- Index of the first maximum of a nonempty list; 0 on the empty list. -/
def listArgmax : List Rat → Nat
  | [] => 0
  | v :: t => argmaxAux t 1 0 v

/-- BaseAgent.is_update (base_agent.py line 136):
`self.steps % self.update_interval == 0 and self.steps >= self.start_steps`. -/
def is_update (cfg : Config) (steps : Nat) : Bool :=
  (steps % cfg.update_interval == 0) && decide (cfg.start_steps ≤ steps)

/-- BaseAgent.is_random (base_agent.py lines 138-146).  Returns the boolean
decision together with the advanced index into the `np.random.rand` stream
(a draw is consumed exactly on the branches that call `np.random.rand`). -/
def is_random (cfg : Config) (ext : Ext) (ev : Bool)
    (steps epsSteps randIdx : Nat) : Bool × Nat :=
  if steps < cfg.start_steps then (true, randIdx)
  else if ev then (decide (ext.rand randIdx < cfg.epsilon_eval), randIdx + 1)
  else if cfg.noisy_net then (false, randIdx)
  else (decide (ext.rand randIdx < epsilonTrainGet cfg epsSteps), randIdx + 1)

/-- BaseAgent.explore (base_agent.py lines 151-155): a fresh draw from the
action sampler of the environment.  Returns the action and the advanced
index into the sampler stream. -/
def explore (ext : Ext) (sampleIdx : Nat) : Nat × Nat :=
  (ext.sampleAction sampleIdx, sampleIdx + 1)

/-- BaseAgent.exploit (base_agent.py lines 157-172): argmax of the Q-values
of the online network at the current observation. -/
def exploit (ext : Ext) (online obs : Nat) : Nat :=
  listArgmax (ext.qvalues online obs)

/-- The action-selection branch shared by train_episode (lines 219-224) and
evaluate (lines 285-290): explore when is_random decides so, exploit
otherwise.  Returns the action, the advanced rand index and the advanced
sampler index. -/
def selectAction (cfg : Config) (ext : Ext) (ev : Bool)
    (online steps epsSteps obs randIdx sampleIdx : Nat) : Nat × Nat × Nat :=
  let ir := is_random cfg ext ev steps epsSteps randIdx
  if ir.1 then
    let ex := explore ext sampleIdx
    (ex.1, ir.2, ex.2)
  else
    (exploit ext online obs, ir.2, sampleIdx)

/-- BaseAgent.update_target (base_agent.py lines 148-149): the target
parameters are overwritten with the online parameters. -/
def update_target (s : AgentState) : AgentState :=
  { s with target := s.online }

/-- Construction of the agent state (BaseAgent.__init__, lines 100-125):
counters start at zero, the best evaluation score starts at minus infinity
(line 105), the replay memory is empty, and when prioritized replay is
enabled the memory receives `beta_steps = (num_steps - start_steps) /
update_interval` (lines 72-81, a true division). -/
def initAgent (cfg : Config) (online0 target0 : Nat) : AgentState where
  steps := 0
  episodes := 0
  best_eval_score := ⊥
  epsilon_steps := 0
  online := online0
  target := target0
  memory := []
  train_return := []
  randIdx := 0
  sampleIdx := 0
  savedFinal := 0
  savedBest := 0
  memoryBeta :=
    if cfg.use_per then
      some (((cfg.num_steps : Rat) - (cfg.start_steps : Rat)) / (cfg.update_interval : Rat))
    else none

/-- Local state of one evaluation episode plus the counters threaded
through the sweep (evaluate, base_agent.py lines 279-297). -/
structure EvalEp where
  obs : Nat
  done : Bool
  episode_steps : Nat
  episode_return : Rat
  num_steps : Nat
  randIdx : Nat
  sampleIdx : Nat

/-- One iteration of the inner episode loop of evaluate (lines 284-297):
select an action with `is_random(eval=True)`, step the test environment,
advance the step counters and accumulate the return. -/
def evalEpisodeBody (cfg : Config) (ext : Ext) (online agSteps epsSteps : Nat)
    (e : EvalEp) : EvalEp :=
  let a := selectAction cfg ext true online agSteps epsSteps e.obs e.randIdx e.sampleIdx
  let st := ext.testStep e.obs a.1
  { obs := st.1
    done := st.2.2
    episode_steps := e.episode_steps + 1
    episode_return := e.episode_return + st.2.1
    num_steps := e.num_steps + 1
    randIdx := a.2.1
    sampleIdx := a.2.2 }

/-- The inner episode loop of evaluate (line 284):
`while (not done) and episode_steps <= max_episode_steps`.  The fuel is an
upper bound on the remaining iterations; since every iteration increments
episode_steps, `max_episode_steps + 1 - episode_steps` iterations always
reach the exit condition. -/
def evalEpisodeIter (cfg : Config) (ext : Ext) (online agSteps epsSteps : Nat) :
    Nat → EvalEp → EvalEp
  | 0, e => e
  | f + 1, e =>
      if e.done = false ∧ e.episode_steps ≤ cfg.max_episode_steps then
        evalEpisodeIter cfg ext online agSteps epsSteps f
          (evalEpisodeBody cfg ext online agSteps epsSteps e)
      else e

/-- State of the evaluation sweep (evaluate, lines 275-307).  The field
`returns` is specification history: the list of the returns of the
completed episodes, so that `total_return` and `num_episodes` can be
related to the set of completed episodes; the code keeps only the two
accumulators. -/
structure EvalSweep where
  num_episodes : Nat
  num_steps : Nat
  total_return : Rat
  returns : List Rat
  randIdx : Nat
  sampleIdx : Nat

/-- The episode state at the top of each evaluation episode (lines
280-283): test environment reset, accumulators cleared, the sweep counters
carried over. -/
def evalEp0 (ext : Ext) (w : EvalSweep) : EvalEp where
  obs := ext.testReset
  done := false
  episode_steps := 0
  episode_return := 0
  num_steps := w.num_steps
  randIdx := w.randIdx
  sampleIdx := w.sampleIdx

/-- Result of one full inner episode of the evaluation sweep: the inner
episode loop from the reset state, with its proven-sufficient fuel
`max_episode_steps + 1`. -/
def evalEpOf (cfg : Config) (ext : Ext) (online agSteps epsSteps : Nat)
    (w : EvalSweep) : EvalEp :=
  evalEpisodeIter cfg ext online agSteps epsSteps (cfg.max_episode_steps + 1)
    (evalEp0 ext w)

/-- One full episode of the evaluation sweep (lines 280-300): run the inner
episode loop, then count the completed episode and accumulate its return. -/
def evalRunEpisode (cfg : Config) (ext : Ext) (online agSteps epsSteps : Nat)
    (w : EvalSweep) : EvalSweep :=
  let e := evalEpOf cfg ext online agSteps epsSteps w
  { num_episodes := w.num_episodes + 1
    num_steps := e.num_steps
    total_return := w.total_return + e.episode_return
    returns := w.returns ++ [e.episode_return]
    randIdx := e.randIdx
    sampleIdx := e.sampleIdx }

/-- The outer loop of evaluate (lines 279-305): a do-while that runs an
episode and then breaks exactly when `num_steps > num_eval_steps`.  The
fuel is an upper bound on the remaining iterations (every episode adds at
least one step). -/
def evalSweepIter (cfg : Config) (ext : Ext) (online agSteps epsSteps : Nat) :
    Nat → EvalSweep → EvalSweep
  | 0, w => w
  | f + 1, w =>
      let w2 := evalRunEpisode cfg ext online agSteps epsSteps w
      if cfg.num_eval_steps < w2.num_steps then w2
      else evalSweepIter cfg ext online agSteps epsSteps f w2

/-- The outer loop of evaluate with its proven-sufficient fuel
`(num_eval_steps + 1 - num_steps) + 1`. -/
def evalSweepLoop (cfg : Config) (ext : Ext) (online agSteps epsSteps : Nat)
    (w : EvalSweep) : EvalSweep :=
  evalSweepIter cfg ext online agSteps epsSteps
    ((cfg.num_eval_steps + 1 - w.num_steps) + 1) w

/-- The sweep state at the top of evaluate (lines 275-278): all local
counters zero, the random stream counters carried over from the agent. -/
def evalSweep0 (s : AgentState) : EvalSweep where
  num_episodes := 0
  num_steps := 0
  total_return := 0
  returns := []
  randIdx := s.randIdx
  sampleIdx := s.sampleIdx

/-- The evaluation sweep started from an agent state. -/
def evalSweepOf (cfg : Config) (ext : Ext) (s : AgentState) : EvalSweep :=
  evalSweepLoop cfg ext s.online s.steps s.epsilon_steps (evalSweep0 s)

/-- The mean return reported by evaluate (line 307):
`total_return / num_episodes`. -/
def evalMean (cfg : Config) (ext : Ext) (s : AgentState) : Rat :=
  (evalSweepOf cfg ext s).total_return / ((evalSweepOf cfg ext s).num_episodes : Rat)

/-- BaseAgent.evaluate (base_agent.py lines 273-316): run the sweep, then
update the best evaluation score and persist the best parameters exactly
when the mean return improves on it (lines 309-311). -/
def evaluate (cfg : Config) (ext : Ext) (s : AgentState) : AgentState :=
  let w := evalSweepOf cfg ext s
  let m := evalMean cfg ext s
  if s.best_eval_score < (m : WithBot Rat) then
    { s with
      best_eval_score := (m : WithBot Rat)
      savedBest := s.savedBest + 1
      randIdx := w.randIdx
      sampleIdx := w.sampleIdx }
  else
    { s with randIdx := w.randIdx, sampleIdx := w.sampleIdx }

/-- First phase of train_step_interval (line 260): advance the epsilon
schedule.  Modelled from the spec: LinearAnneaer.step from utils.py is not
under src/; section 4.3 of the specification says it increments
steps_taken by 1, called once per environment interaction. -/
def epsilonPhase (s : AgentState) : AgentState :=
  { s with epsilon_steps := s.epsilon_steps + 1 }

/-- Second phase of train_step_interval (lines 262-263): copy the online
parameters into the target network when `steps % target_update_interval == 0`. -/
def targetSyncPhase (cfg : Config) (s : AgentState) : AgentState :=
  if s.steps % cfg.target_update_interval = 0 then update_target s else s

/-- Third phase of train_step_interval (lines 265-266): invoke the learning
step of the subclass when is_update holds; the learning step is an external
collaborator acting on the online parameters. -/
def learnPhase (cfg : Config) (ext : Ext) (s : AgentState) : AgentState :=
  if is_update cfg s.steps then { s with online := ext.learnStep s.online } else s

/-- Fourth phase of train_step_interval (lines 268-271): when
`steps % eval_interval == 0`, run the evaluation sweep and then persist the
current parameters to the final model directory. -/
def evalPhase (cfg : Config) (ext : Ext) (s : AgentState) : AgentState :=
  if s.steps % cfg.eval_interval = 0 then
    let s4 := evaluate cfg ext s
    { s4 with savedFinal := s4.savedFinal + 1 }
  else s

/-- BaseAgent.train_step_interval (base_agent.py lines 259-271): the four
phases in source order. -/
def train_step_interval (cfg : Config) (ext : Ext) (s : AgentState) : AgentState :=
  evalPhase cfg ext (learnPhase cfg ext (targetSyncPhase cfg (epsilonPhase s)))

/-- Local state of one training episode (train_episode, lines 201-208). -/
structure TrainEp where
  agent : AgentState
  obs : Nat
  done : Bool
  episode_steps : Nat
  episode_return : Rat

/-- The action selected in one iteration of the episode loop of
train_episode (lines 214-224): the network noise is resampled first
(line 217), then `is_random(eval=False)` decides between explore and
exploit. -/
def trainActionOf (cfg : Config) (ext : Ext) (e : TrainEp) : Nat × Nat × Nat :=
  selectAction cfg ext false (ext.sampleNoise e.agent.online) e.agent.steps
    e.agent.epsilon_steps e.obs e.agent.randIdx e.agent.sampleIdx

/-- The environment step taken in one iteration of the episode loop of
train_episode (line 234). -/
def trainStepResult (cfg : Config) (ext : Ext) (e : TrainEp) : Nat × Rat × Bool :=
  ext.envStep e.obs (trainActionOf cfg ext e).1

/-- The raw transition appended to the replay memory in one iteration of
the episode loop of train_episode (line 240). -/
def trainStepTrans (cfg : Config) (ext : Ext) (e : TrainEp) : Trans where
  state := e.obs
  action := (trainActionOf cfg ext e).1
  reward := (trainStepResult cfg ext e).2.1
  next_state := (trainStepResult cfg ext e).1
  done := (trainStepResult cfg ext e).2.2

/-- One iteration of the episode loop of train_episode (lines 210-247):
resample the network noise, select an action with `is_random(eval=False)`,
step the environment, append the raw transition to the replay memory,
increment the global step counter, accumulate the return, and run
train_step_interval. -/
def trainEpisodeBody (cfg : Config) (ext : Ext) (e : TrainEp) : TrainEp :=
  let s0 := { e.agent with online := ext.sampleNoise e.agent.online }
  let a := trainActionOf cfg ext e
  let st := trainStepResult cfg ext e
  let s2 :=
    { s0 with
      memory := s0.memory ++ [trainStepTrans cfg ext e]
      steps := s0.steps + 1
      randIdx := a.2.1
      sampleIdx := a.2.2 }
  let s3 := train_step_interval cfg ext s2
  { agent := s3
    obs := st.1
    done := st.2.2
    episode_steps := e.episode_steps + 1
    episode_return := e.episode_return + st.2.1 }

/-- The episode loop of train_episode (line 210):
`while (not done) and episode_steps <= max_episode_steps`, by fuel as in
the evaluation episode loop. -/
def trainEpisodeIter (cfg : Config) (ext : Ext) : Nat → TrainEp → TrainEp
  | 0, e => e
  | f + 1, e =>
      if e.done = false ∧ e.episode_steps ≤ cfg.max_episode_steps then
        trainEpisodeIter cfg ext f (trainEpisodeBody cfg ext e)
      else e

/-- The episode state at the top of train_episode (lines 200-208): episode
counter incremented, return and step accumulators cleared, environment
reset. -/
def trainEp0 (cfg : Config) (ext : Ext) (s : AgentState) : TrainEp where
  agent := { s with episodes := s.episodes + 1 }
  obs := ext.envReset
  done := false
  episode_steps := 0
  episode_return := 0

/-- The full episode state produced by one call of train_episode: the
episode loop from the reset state, with its proven-sufficient fuel
`max_episode_steps + 1`. -/
def trainEpisodeFull (cfg : Config) (ext : Ext) (s : AgentState) : TrainEp :=
  trainEpisodeIter cfg ext (cfg.max_episode_steps + 1) (trainEp0 cfg ext s)

/-- BaseAgent.train_episode (base_agent.py lines 196-257): the episode loop
followed by recording the episode return into the running return
statistics (line 250). -/
def train_episode (cfg : Config) (ext : Ext) (s : AgentState) : AgentState :=
  let e := trainEpisodeFull cfg ext s
  { e.agent with train_return := e.agent.train_return ++ [e.episode_return] }

/-- The loop of BaseAgent.run (lines 127-131): a do-while that runs an
episode and breaks exactly when `steps > num_steps`, by fuel. -/
def runIter (cfg : Config) (ext : Ext) : Nat → AgentState → AgentState
  | 0, s => s
  | f + 1, s =>
      let s2 := train_episode cfg ext s
      if cfg.num_steps < s2.steps then s2 else runIter cfg ext f s2

/-- BaseAgent.run with its proven-sufficient fuel
`(num_steps + 1 - steps) + 1` (every episode adds at least one step). -/
def run (cfg : Config) (ext : Ext) (s : AgentState) : AgentState :=
  runIter cfg ext ((cfg.num_steps + 1 - s.steps) + 1) s

/-- Modelled from the spec: the termination condition claimed for the
evaluation sweep, namely that the loop breaks as soon as the cumulative
step count meets the minimum budget (`num_steps ≥ num_eval_steps` checked
after the in-flight episode); this is the claim-side variant to compare
with `evalSweepIter`, whose break condition is the strict comparison of
the source (line 303). -/
def evalSweepIterMeets (cfg : Config) (ext : Ext) (online agSteps epsSteps : Nat) :
    Nat → EvalSweep → EvalSweep
  | 0, w => w
  | f + 1, w =>
      let w2 := evalRunEpisode cfg ext online agSteps epsSteps w
      if cfg.num_eval_steps ≤ w2.num_steps then w2
      else evalSweepIterMeets cfg ext online agSteps epsSteps f w2

/-- The claim-side sweep started from an agent state, with the same fuel
as the source-side sweep. -/
def evalSweepMeetsOf (cfg : Config) (ext : Ext) (s : AgentState) : EvalSweep :=
  evalSweepIterMeets cfg ext s.online s.steps s.epsilon_steps
    ((cfg.num_eval_steps + 1 - 0) + 1) (evalSweep0 s)

/-- A concrete configuration for evaluating the sweep at small size:
evaluation step budget 2, no exploration (epsilon_eval = 0, start_steps =
0), episode cap 5. -/
def cfgC : Config where
  num_steps := 100
  update_interval := 4
  target_update_interval := 10
  start_steps := 0
  epsilon_train := 0
  epsilon_decay_steps := 10
  epsilon_eval := 0
  eval_interval := 10
  num_eval_steps := 2
  max_episode_steps := 5
  noisy_net := false
  use_per := false

/-- Concrete collaborators whose test environment runs episodes of exactly
two steps (observations count 0, 1, 2 and the episode is done on reaching
2), with reward 1 per step and deterministic greedy action 0. -/
def extC : Ext where
  envReset := 0
  envStep := fun o _ => (o + 1, 1, o == 1)
  testReset := 0
  testStep := fun o _ => (o + 1, 1, o == 1)
  sampleAction := fun _ => 0
  rand := fun _ => 1 / 2
  qvalues := fun _ _ => [0]
  learnStep := fun p => p
  sampleNoise := fun p => p

/-- The freshly constructed agent state for the concrete evaluation. -/
def stC : AgentState := initAgent cfgC 0 0

/-
Helper lemmas.  The frame lemmas record which fields of the agent state
each operation leaves untouched; the fuel lemmas show the chosen fuels are
upper bounds on the iteration counts, so the fueled loops satisfy the
defining equations of the source loops.
-/

theorem evaluate_steps (cfg : Config) (ext : Ext) (s : AgentState) :
    (evaluate cfg ext s).steps = s.steps := by
  unfold evaluate; dsimp only; split <;> rfl

theorem evaluate_episodes (cfg : Config) (ext : Ext) (s : AgentState) :
    (evaluate cfg ext s).episodes = s.episodes := by
  unfold evaluate; dsimp only; split <;> rfl

theorem evaluate_epsilon_steps (cfg : Config) (ext : Ext) (s : AgentState) :
    (evaluate cfg ext s).epsilon_steps = s.epsilon_steps := by
  unfold evaluate; dsimp only; split <;> rfl

theorem evaluate_memory (cfg : Config) (ext : Ext) (s : AgentState) :
    (evaluate cfg ext s).memory = s.memory := by
  unfold evaluate; dsimp only; split <;> rfl

theorem evaluate_train_return (cfg : Config) (ext : Ext) (s : AgentState) :
    (evaluate cfg ext s).train_return = s.train_return := by
  unfold evaluate; dsimp only; split <;> rfl

theorem evaluate_target (cfg : Config) (ext : Ext) (s : AgentState) :
    (evaluate cfg ext s).target = s.target := by
  unfold evaluate; dsimp only; split <;> rfl

theorem evaluate_online (cfg : Config) (ext : Ext) (s : AgentState) :
    (evaluate cfg ext s).online = s.online := by
  unfold evaluate; dsimp only; split <;> rfl

theorem evaluate_best_mono (cfg : Config) (ext : Ext) (s : AgentState) :
    s.best_eval_score ≤ (evaluate cfg ext s).best_eval_score := by
  unfold evaluate; dsimp only; split
  · next h => exact le_of_lt h
  · exact le_refl _

theorem tsi_steps (cfg : Config) (ext : Ext) (s : AgentState) :
    (train_step_interval cfg ext s).steps = s.steps := by
  unfold train_step_interval evalPhase learnPhase targetSyncPhase epsilonPhase update_target
  repeat' split
  all_goals simp [evaluate_steps]

theorem tsi_episodes (cfg : Config) (ext : Ext) (s : AgentState) :
    (train_step_interval cfg ext s).episodes = s.episodes := by
  unfold train_step_interval evalPhase learnPhase targetSyncPhase epsilonPhase update_target
  repeat' split
  all_goals simp [evaluate_episodes]

theorem tsi_epsilon_steps (cfg : Config) (ext : Ext) (s : AgentState) :
    (train_step_interval cfg ext s).epsilon_steps = s.epsilon_steps + 1 := by
  unfold train_step_interval evalPhase learnPhase targetSyncPhase epsilonPhase update_target
  repeat' split
  all_goals simp [evaluate_epsilon_steps]

theorem tsi_memory (cfg : Config) (ext : Ext) (s : AgentState) :
    (train_step_interval cfg ext s).memory = s.memory := by
  unfold train_step_interval evalPhase learnPhase targetSyncPhase epsilonPhase update_target
  repeat' split
  all_goals simp [evaluate_memory]

theorem tsi_train_return (cfg : Config) (ext : Ext) (s : AgentState) :
    (train_step_interval cfg ext s).train_return = s.train_return := by
  unfold train_step_interval evalPhase learnPhase targetSyncPhase epsilonPhase update_target
  repeat' split
  all_goals simp [evaluate_train_return]

theorem tsi_target (cfg : Config) (ext : Ext) (s : AgentState) :
    (train_step_interval cfg ext s).target
      = (if s.steps % cfg.target_update_interval = 0 then s.online else s.target) := by
  unfold train_step_interval evalPhase learnPhase targetSyncPhase epsilonPhase update_target
  repeat' split
  all_goals simp_all [evaluate_target]

theorem evalPhase_best_mono (cfg : Config) (ext : Ext) (s : AgentState) :
    s.best_eval_score ≤ (evalPhase cfg ext s).best_eval_score := by
  unfold evalPhase
  split
  · exact evaluate_best_mono cfg ext s
  · exact le_refl _

theorem tsi_best_mono (cfg : Config) (ext : Ext) (s : AgentState) :
    s.best_eval_score ≤ (train_step_interval cfg ext s).best_eval_score := by
  unfold train_step_interval
  refine le_trans ?_ (evalPhase_best_mono cfg ext _)
  unfold learnPhase targetSyncPhase epsilonPhase update_target
  repeat' split
  all_goals exact le_refl _

theorem trainEpisodeBody_steps (cfg : Config) (ext : Ext) (e : TrainEp) :
    (trainEpisodeBody cfg ext e).agent.steps = e.agent.steps + 1 := by
  simp [trainEpisodeBody, tsi_steps]

theorem trainEpisodeBody_episode_steps (cfg : Config) (ext : Ext) (e : TrainEp) :
    (trainEpisodeBody cfg ext e).episode_steps = e.episode_steps + 1 := rfl

theorem trainEpisodeBody_epsilon_steps (cfg : Config) (ext : Ext) (e : TrainEp) :
    (trainEpisodeBody cfg ext e).agent.epsilon_steps = e.agent.epsilon_steps + 1 := by
  simp [trainEpisodeBody, tsi_epsilon_steps]

theorem trainEpisodeBody_memory (cfg : Config) (ext : Ext) (e : TrainEp) :
    (trainEpisodeBody cfg ext e).agent.memory
      = e.agent.memory ++ [trainStepTrans cfg ext e] := by
  simp [trainEpisodeBody, tsi_memory]

theorem trainEpisodeBody_train_return (cfg : Config) (ext : Ext) (e : TrainEp) :
    (trainEpisodeBody cfg ext e).agent.train_return = e.agent.train_return := by
  simp [trainEpisodeBody, tsi_train_return]

theorem trainEpisodeBody_episodes (cfg : Config) (ext : Ext) (e : TrainEp) :
    (trainEpisodeBody cfg ext e).agent.episodes = e.agent.episodes := by
  simp [trainEpisodeBody, tsi_episodes]

theorem trainEpisodeBody_best_mono (cfg : Config) (ext : Ext) (e : TrainEp) :
    e.agent.best_eval_score ≤ (trainEpisodeBody cfg ext e).agent.best_eval_score := by
  simp only [trainEpisodeBody]
  refine le_trans ?_ (tsi_best_mono cfg ext _)
  exact le_refl _

/-- Lockstep invariant of the training episode loop: over any number of
iterations, the global step counter, the local episode step counter, the
epsilon schedule position and the replay memory length all advance by the
same amount, while the running return statistics and the episode counter
are untouched. -/
theorem trainEpisodeIter_delta (cfg : Config) (ext : Ext) :
    ∀ (f : Nat) (e : TrainEp), ∃ n, n ≤ f ∧
      (trainEpisodeIter cfg ext f e).agent.steps = e.agent.steps + n ∧
      (trainEpisodeIter cfg ext f e).episode_steps = e.episode_steps + n ∧
      (trainEpisodeIter cfg ext f e).agent.epsilon_steps = e.agent.epsilon_steps + n ∧
      (∃ l : List Trans, l.length = n ∧
        (trainEpisodeIter cfg ext f e).agent.memory = e.agent.memory ++ l) ∧
      (trainEpisodeIter cfg ext f e).agent.train_return = e.agent.train_return ∧
      (trainEpisodeIter cfg ext f e).agent.episodes = e.agent.episodes := by
  intro f
  induction f with
  | zero =>
      intro e
      exact ⟨0, Nat.le_refl 0, rfl, rfl, rfl, ⟨[], rfl, (List.append_nil _).symm⟩, rfl, rfl⟩
  | succ f ih =>
      intro e
      by_cases h : e.done = false ∧ e.episode_steps ≤ cfg.max_episode_steps
      · simp only [trainEpisodeIter, if_pos h]
        obtain ⟨n, hn, h1, h2, h3, ⟨l, hl, hm⟩, h5, h6⟩ := ih (trainEpisodeBody cfg ext e)
        refine ⟨n + 1, by omega, ?_, ?_, ?_,
          ⟨trainStepTrans cfg ext e :: l, by simp [hl], ?_⟩, ?_, ?_⟩
        · rw [h1, trainEpisodeBody_steps]; omega
        · rw [h2, trainEpisodeBody_episode_steps]; omega
        · rw [h3, trainEpisodeBody_epsilon_steps]; omega
        · rw [hm, trainEpisodeBody_memory]; simp
        · rw [h5, trainEpisodeBody_train_return]
        · rw [h6, trainEpisodeBody_episodes]
      · have hiter : trainEpisodeIter cfg ext (f + 1) e = e := by
          simp only [trainEpisodeIter, if_neg h]
        rw [hiter]
        exact ⟨0, Nat.zero_le _, rfl, rfl, rfl, ⟨[], rfl, (List.append_nil _).symm⟩, rfl, rfl⟩

/-- On exit of the training episode loop (given enough fuel), the source
loop condition has become false: the episode is done or the episode step
cap has been exceeded. -/
theorem trainEpisodeIter_exit (cfg : Config) (ext : Ext) :
    ∀ (f : Nat) (e : TrainEp), cfg.max_episode_steps + 1 ≤ f + e.episode_steps →
      (trainEpisodeIter cfg ext f e).done = true ∨
        cfg.max_episode_steps < (trainEpisodeIter cfg ext f e).episode_steps := by
  intro f
  induction f with
  | zero =>
      intro e hf
      cases hd : e.done with
      | true => exact Or.inl (by simp [trainEpisodeIter, hd])
      | false => exact Or.inr (by simp only [trainEpisodeIter]; omega)
  | succ f ih =>
      intro e hf
      by_cases h : e.done = false ∧ e.episode_steps ≤ cfg.max_episode_steps
      · simp only [trainEpisodeIter, if_pos h]
        refine ih (trainEpisodeBody cfg ext e) ?_
        rw [trainEpisodeBody_episode_steps]
        omega
      · simp only [trainEpisodeIter, if_neg h]
        cases hd : e.done with
        | true => exact Or.inl rfl
        | false =>
            refine Or.inr ?_
            rcases not_and_or.mp h with h1 | h2
            · exact absurd hd h1
            · omega

theorem trainEpisodeIter_best_mono (cfg : Config) (ext : Ext) :
    ∀ (f : Nat) (e : TrainEp),
      e.agent.best_eval_score ≤ (trainEpisodeIter cfg ext f e).agent.best_eval_score := by
  intro f
  induction f with
  | zero => intro e; exact le_refl _
  | succ f ih =>
      intro e
      by_cases h : e.done = false ∧ e.episode_steps ≤ cfg.max_episode_steps
      · simp only [trainEpisodeIter, if_pos h]
        exact le_trans (trainEpisodeBody_best_mono cfg ext e) (ih _)
      · simp only [trainEpisodeIter, if_neg h]
        exact le_refl _

theorem trainEpisodeFull_unfold (cfg : Config) (ext : Ext) (s : AgentState) :
    trainEpisodeFull cfg ext s
      = trainEpisodeIter cfg ext cfg.max_episode_steps
          (trainEpisodeBody cfg ext (trainEp0 cfg ext s)) := by
  unfold trainEpisodeFull
  simp only [trainEpisodeIter]
  rw [if_pos ⟨rfl, Nat.zero_le _⟩]

/-- Aggregate effect of the episode loop of train_episode: some number of
loop iterations n with 1 ≤ n ≤ max_episode_steps + 1, advancing the global
step counter, the epsilon schedule and the replay memory in lockstep by n,
leaving the running return statistics untouched. -/
theorem trainEpisodeFull_delta (cfg : Config) (ext : Ext) (s : AgentState) :
    ∃ n, 1 ≤ n ∧ n ≤ cfg.max_episode_steps + 1 ∧
      (trainEpisodeFull cfg ext s).agent.steps = s.steps + n ∧
      (trainEpisodeFull cfg ext s).agent.epsilon_steps = s.epsilon_steps + n ∧
      (∃ l : List Trans, l.length = n ∧
        (trainEpisodeFull cfg ext s).agent.memory = s.memory ++ l) ∧
      (trainEpisodeFull cfg ext s).agent.train_return = s.train_return ∧
      (trainEpisodeFull cfg ext s).agent.episodes = s.episodes + 1 := by
  obtain ⟨n, hn, h1, h2, h3, ⟨l, hl, hm⟩, h5, h6⟩ :=
    trainEpisodeIter_delta cfg ext cfg.max_episode_steps
      (trainEpisodeBody cfg ext (trainEp0 cfg ext s))
  rw [trainEpisodeBody_steps] at h1
  rw [trainEpisodeBody_epsilon_steps] at h3
  rw [trainEpisodeBody_memory] at hm
  rw [trainEpisodeBody_train_return] at h5
  rw [trainEpisodeBody_episodes] at h6
  have e0agent : (trainEp0 cfg ext s).agent = { s with episodes := s.episodes + 1 } := rfl
  rw [e0agent] at h1 h3 hm h5 h6
  refine ⟨n + 1, by omega, by omega, ?_, ?_,
    ⟨trainStepTrans cfg ext (trainEp0 cfg ext s) :: l, by simp [hl], ?_⟩, ?_, ?_⟩
  · rw [trainEpisodeFull_unfold, h1]; simp; omega
  · rw [trainEpisodeFull_unfold, h3]; simp; omega
  · rw [trainEpisodeFull_unfold, hm]; simp
  · rw [trainEpisodeFull_unfold, h5]
  · rw [trainEpisodeFull_unfold, h6]

/-- Aggregate effect of one call of train_episode: the loop effects of
trainEpisodeFull_delta, plus recording the episode return into the running
return statistics exactly once. -/
theorem train_episode_delta (cfg : Config) (ext : Ext) (s : AgentState) :
    ∃ n, 1 ≤ n ∧ n ≤ cfg.max_episode_steps + 1 ∧
      (train_episode cfg ext s).steps = s.steps + n ∧
      (train_episode cfg ext s).epsilon_steps = s.epsilon_steps + n ∧
      (∃ l : List Trans, l.length = n ∧
        (train_episode cfg ext s).memory = s.memory ++ l) ∧
      (∃ q : Rat, (train_episode cfg ext s).train_return = s.train_return ++ [q]) ∧
      (train_episode cfg ext s).episodes = s.episodes + 1 := by
  obtain ⟨n, hn1, hn2, h1, h2, ⟨l, hl, hm⟩, h5, h6⟩ := trainEpisodeFull_delta cfg ext s
  refine ⟨n, hn1, hn2, h1, h2, ⟨l, hl, hm⟩, ⟨(trainEpisodeFull cfg ext s).episode_return, ?_⟩, h6⟩
  show (trainEpisodeFull cfg ext s).agent.train_return ++ _ = _
  rw [h5]

theorem train_episode_steps_lt (cfg : Config) (ext : Ext) (s : AgentState) :
    s.steps < (train_episode cfg ext s).steps := by
  obtain ⟨n, hn, _, hsteps, _⟩ := train_episode_delta cfg ext s
  omega

theorem train_episode_best_mono (cfg : Config) (ext : Ext) (s : AgentState) :
    s.best_eval_score ≤ (train_episode cfg ext s).best_eval_score := by
  show s.best_eval_score ≤ (trainEpisodeFull cfg ext s).agent.best_eval_score
  unfold trainEpisodeFull
  refine le_trans ?_ (trainEpisodeIter_best_mono cfg ext _ _)
  exact le_refl _

/-- With fuel at least 1 and at least `num_steps + 1 - steps`, the run loop
reaches a state with `steps > num_steps` (every episode adds at least one
step). -/
theorem runIter_post (cfg : Config) (ext : Ext) :
    ∀ (f : Nat) (s : AgentState), 1 ≤ f → cfg.num_steps + 1 - s.steps ≤ f →
      cfg.num_steps < (runIter cfg ext f s).steps := by
  intro f
  induction f with
  | zero => intro s h1 _; omega
  | succ f ih =>
      intro s h1 h2
      simp only [runIter]
      by_cases hstop : cfg.num_steps < (train_episode cfg ext s).steps
      · rw [if_pos hstop]; exact hstop
      · rw [if_neg hstop]
        have hlt := train_episode_steps_lt cfg ext s
        exact ih (train_episode cfg ext s) (by omega) (by omega)

/-- Fuel irrelevance for the run loop: any two fuels at least
`(num_steps + 1 - steps) + 1` give the same result, so the fueled loop is
the do-while loop of the source. -/
theorem runIter_congr (cfg : Config) (ext : Ext) :
    ∀ (f g : Nat) (s : AgentState),
      (cfg.num_steps + 1 - s.steps) + 1 ≤ f → (cfg.num_steps + 1 - s.steps) + 1 ≤ g →
      runIter cfg ext f s = runIter cfg ext g s := by
  intro f
  induction f with
  | zero => intro g s hf _; omega
  | succ f ih =>
      intro g s hf hg
      cases g with
      | zero => omega
      | succ g =>
          simp only [runIter]
          by_cases hstop : cfg.num_steps < (train_episode cfg ext s).steps
          · rw [if_pos hstop, if_pos hstop]
          · rw [if_neg hstop, if_neg hstop]
            have hlt := train_episode_steps_lt cfg ext s
            exact ih g (train_episode cfg ext s) (by omega) (by omega)

theorem runIter_best_mono (cfg : Config) (ext : Ext) :
    ∀ (f : Nat) (s : AgentState),
      s.best_eval_score ≤ (runIter cfg ext f s).best_eval_score := by
  intro f
  induction f with
  | zero => intro s; exact le_refl _
  | succ f ih =>
      intro s
      simp only [runIter]
      by_cases hstop : cfg.num_steps < (train_episode cfg ext s).steps
      · rw [if_pos hstop]; exact train_episode_best_mono cfg ext s
      · rw [if_neg hstop]
        exact le_trans (train_episode_best_mono cfg ext s) (ih _)

theorem evalEpisodeBody_num_steps (cfg : Config) (ext : Ext)
    (online agSteps epsSteps : Nat) (e : EvalEp) :
    (evalEpisodeBody cfg ext online agSteps epsSteps e).num_steps = e.num_steps + 1 := rfl

theorem evalEpisodeIter_num_steps_mono (cfg : Config) (ext : Ext)
    (online agSteps epsSteps : Nat) :
    ∀ (f : Nat) (e : EvalEp),
      e.num_steps ≤ (evalEpisodeIter cfg ext online agSteps epsSteps f e).num_steps := by
  intro f
  induction f with
  | zero => intro e; exact le_refl _
  | succ f ih =>
      intro e
      by_cases h : e.done = false ∧ e.episode_steps ≤ cfg.max_episode_steps
      · simp only [evalEpisodeIter, if_pos h]
        refine le_trans ?_ (ih _)
        rw [evalEpisodeBody_num_steps]
        omega
      · simp only [evalEpisodeIter, if_neg h]
        exact le_refl _

/-- Each evaluation episode advances the cumulative evaluation step counter
by at least one: the inner loop condition holds at entry (done is false and
episode_steps = 0), so at least one environment step is taken. -/
theorem evalEpOf_unfold (cfg : Config) (ext : Ext) (online agSteps epsSteps : Nat)
    (w : EvalSweep) :
    evalEpOf cfg ext online agSteps epsSteps w
      = evalEpisodeIter cfg ext online agSteps epsSteps cfg.max_episode_steps
          (evalEpisodeBody cfg ext online agSteps epsSteps (evalEp0 ext w)) := by
  unfold evalEpOf
  simp only [evalEpisodeIter]
  rw [if_pos ⟨rfl, Nat.zero_le _⟩]

theorem evalRunEpisode_num_steps_lt (cfg : Config) (ext : Ext)
    (online agSteps epsSteps : Nat) (w : EvalSweep) :
    w.num_steps < (evalRunEpisode cfg ext online agSteps epsSteps w).num_steps := by
  show w.num_steps < (evalEpOf cfg ext online agSteps epsSteps w).num_steps
  rw [evalEpOf_unfold]
  refine Nat.lt_of_lt_of_le ?_ (evalEpisodeIter_num_steps_mono cfg ext online agSteps epsSteps _ _)
  rw [evalEpisodeBody_num_steps]
  show w.num_steps < (evalEp0 ext w).num_steps + 1
  have h0 : (evalEp0 ext w).num_steps = w.num_steps := rfl
  omega

theorem evalRunEpisode_num_episodes (cfg : Config) (ext : Ext)
    (online agSteps epsSteps : Nat) (w : EvalSweep) :
    (evalRunEpisode cfg ext online agSteps epsSteps w).num_episodes
      = w.num_episodes + 1 := rfl

theorem evalRunEpisode_returns (cfg : Config) (ext : Ext)
    (online agSteps epsSteps : Nat) (w : EvalSweep) :
    (evalRunEpisode cfg ext online agSteps epsSteps w).returns
      = w.returns ++ [(evalEpOf cfg ext online agSteps epsSteps w).episode_return] := rfl

theorem evalRunEpisode_total_return (cfg : Config) (ext : Ext)
    (online agSteps epsSteps : Nat) (w : EvalSweep) :
    (evalRunEpisode cfg ext online agSteps epsSteps w).total_return
      = w.total_return + (evalEpOf cfg ext online agSteps epsSteps w).episode_return := rfl

/-- With fuel at least 1 and at least `num_eval_steps + 1 - num_steps`, the
evaluation sweep loop reaches a state with cumulative steps strictly above
the budget. -/
theorem evalSweepIter_post (cfg : Config) (ext : Ext) (online agSteps epsSteps : Nat) :
    ∀ (f : Nat) (w : EvalSweep), 1 ≤ f → cfg.num_eval_steps + 1 - w.num_steps ≤ f →
      cfg.num_eval_steps < (evalSweepIter cfg ext online agSteps epsSteps f w).num_steps := by
  intro f
  induction f with
  | zero => intro w h1 _; omega
  | succ f ih =>
      intro w h1 h2
      simp only [evalSweepIter]
      by_cases hstop : cfg.num_eval_steps
          < (evalRunEpisode cfg ext online agSteps epsSteps w).num_steps
      · rw [if_pos hstop]; exact hstop
      · rw [if_neg hstop]
        have hlt := evalRunEpisode_num_steps_lt cfg ext online agSteps epsSteps w
        exact ih _ (by omega) (by omega)

/-- Fuel irrelevance for the evaluation sweep loop: any two fuels at least
`(num_eval_steps + 1 - num_steps) + 1` give the same result, so the fueled
loop is the do-while loop of the source. -/
theorem evalSweepIter_congr (cfg : Config) (ext : Ext) (online agSteps epsSteps : Nat) :
    ∀ (f g : Nat) (w : EvalSweep),
      (cfg.num_eval_steps + 1 - w.num_steps) + 1 ≤ f →
      (cfg.num_eval_steps + 1 - w.num_steps) + 1 ≤ g →
      evalSweepIter cfg ext online agSteps epsSteps f w
        = evalSweepIter cfg ext online agSteps epsSteps g w := by
  intro f
  induction f with
  | zero => intro g w hf _; omega
  | succ f ih =>
      intro g w hf hg
      cases g with
      | zero => omega
      | succ g =>
          simp only [evalSweepIter]
          by_cases hstop : cfg.num_eval_steps
              < (evalRunEpisode cfg ext online agSteps epsSteps w).num_steps
          · rw [if_pos hstop, if_pos hstop]
          · rw [if_neg hstop, if_neg hstop]
            have hlt := evalRunEpisode_num_steps_lt cfg ext online agSteps epsSteps w
            exact ih g _ (by omega) (by omega)

theorem evalSweepIter_num_episodes_mono (cfg : Config) (ext : Ext)
    (online agSteps epsSteps : Nat) :
    ∀ (f : Nat) (w : EvalSweep),
      w.num_episodes ≤ (evalSweepIter cfg ext online agSteps epsSteps f w).num_episodes := by
  intro f
  induction f with
  | zero => intro w; exact le_refl _
  | succ f ih =>
      intro w
      simp only [evalSweepIter]
      by_cases hstop : cfg.num_eval_steps
          < (evalRunEpisode cfg ext online agSteps epsSteps w).num_steps
      · rw [if_pos hstop]
        rw [evalRunEpisode_num_episodes]
        omega
      · rw [if_neg hstop]
        refine le_trans ?_ (ih _)
        rw [evalRunEpisode_num_episodes]
        omega

/-- Bookkeeping invariant of the evaluation sweep loop: the episode counter
equals the number of recorded episode returns and the return accumulator
equals their sum. -/
theorem evalSweepIter_inv (cfg : Config) (ext : Ext) (online agSteps epsSteps : Nat) :
    ∀ (f : Nat) (w : EvalSweep),
      w.num_episodes = w.returns.length → w.total_return = w.returns.sum →
      (evalSweepIter cfg ext online agSteps epsSteps f w).num_episodes
          = (evalSweepIter cfg ext online agSteps epsSteps f w).returns.length ∧
        (evalSweepIter cfg ext online agSteps epsSteps f w).total_return
          = (evalSweepIter cfg ext online agSteps epsSteps f w).returns.sum := by
  intro f
  induction f with
  | zero => intro w h1 h2; exact ⟨h1, h2⟩
  | succ f ih =>
      intro w h1 h2
      have hep : (evalRunEpisode cfg ext online agSteps epsSteps w).num_episodes
            = (evalRunEpisode cfg ext online agSteps epsSteps w).returns.length ∧
          (evalRunEpisode cfg ext online agSteps epsSteps w).total_return
            = (evalRunEpisode cfg ext online agSteps epsSteps w).returns.sum := by
        rw [evalRunEpisode_num_episodes, evalRunEpisode_returns,
          evalRunEpisode_total_return]
        constructor
        · simp [h1]
        · simp [h2]
      simp only [evalSweepIter]
      by_cases hstop : cfg.num_eval_steps
          < (evalRunEpisode cfg ext online agSteps epsSteps w).num_steps
      · rw [if_pos hstop]; exact hep
      · rw [if_neg hstop]
        exact ih _ hep.1 hep.2

/-- The fueled evaluation sweep loop satisfies the defining equation of the
do-while loop of the source: run one episode, then stop exactly when the
cumulative step count strictly exceeds the budget. -/
theorem evalSweepLoop_eq (cfg : Config) (ext : Ext) (online agSteps epsSteps : Nat)
    (w : EvalSweep) :
    evalSweepLoop cfg ext online agSteps epsSteps w
      = (if cfg.num_eval_steps
            < (evalRunEpisode cfg ext online agSteps epsSteps w).num_steps
         then evalRunEpisode cfg ext online agSteps epsSteps w
         else evalSweepLoop cfg ext online agSteps epsSteps
           (evalRunEpisode cfg ext online agSteps epsSteps w)) := by
  have hstep : evalSweepLoop cfg ext online agSteps epsSteps w
      = (if cfg.num_eval_steps
            < (evalRunEpisode cfg ext online agSteps epsSteps w).num_steps
         then evalRunEpisode cfg ext online agSteps epsSteps w
         else evalSweepIter cfg ext online agSteps epsSteps
           (cfg.num_eval_steps + 1 - w.num_steps)
           (evalRunEpisode cfg ext online agSteps epsSteps w)) := rfl
  rw [hstep]
  by_cases hstop : cfg.num_eval_steps
      < (evalRunEpisode cfg ext online agSteps epsSteps w).num_steps
  · rw [if_pos hstop, if_pos hstop]
  · rw [if_neg hstop, if_neg hstop]
    unfold evalSweepLoop
    have hlt := evalRunEpisode_num_steps_lt cfg ext online agSteps epsSteps w
    refine evalSweepIter_congr cfg ext online agSteps epsSteps _ _ _ ?_ ?_ <;> omega

theorem evalSweepOf_num_steps (cfg : Config) (ext : Ext) (s : AgentState) :
    cfg.num_eval_steps < (evalSweepOf cfg ext s).num_steps := by
  unfold evalSweepOf evalSweepLoop
  have h0 : (evalSweep0 s).num_steps = 0 := rfl
  exact evalSweepIter_post cfg ext s.online s.steps s.epsilon_steps _ _ (by omega) (by omega)

theorem evalSweepOf_num_episodes_pos (cfg : Config) (ext : Ext) (s : AgentState) :
    1 ≤ (evalSweepOf cfg ext s).num_episodes := by
  unfold evalSweepOf
  rw [evalSweepLoop_eq]
  by_cases hstop : cfg.num_eval_steps
      < (evalRunEpisode cfg ext s.online s.steps s.epsilon_steps (evalSweep0 s)).num_steps
  · rw [if_pos hstop, evalRunEpisode_num_episodes]
    omega
  · rw [if_neg hstop]
    unfold evalSweepLoop
    refine le_trans ?_ (evalSweepIter_num_episodes_mono cfg ext s.online s.steps s.epsilon_steps _ _)
    rw [evalRunEpisode_num_episodes]
    omega

theorem evalSweepOf_inv (cfg : Config) (ext : Ext) (s : AgentState) :
    (evalSweepOf cfg ext s).num_episodes = (evalSweepOf cfg ext s).returns.length ∧
    (evalSweepOf cfg ext s).total_return = (evalSweepOf cfg ext s).returns.sum := by
  unfold evalSweepOf evalSweepLoop
  exact evalSweepIter_inv cfg ext s.online s.steps s.epsilon_steps _ _ rfl rfl

theorem is_random_eval_iff (cfg : Config) (ext : Ext) (steps epsSteps r : Nat) :
    (is_random cfg ext true steps epsSteps r).1 = true ↔
      (steps < cfg.start_steps ∨ ext.rand r < cfg.epsilon_eval) := by
  unfold is_random
  by_cases h1 : steps < cfg.start_steps
  · simp [h1]
  · simp [h1]

theorem is_random_train_iff (cfg : Config) (ext : Ext) (steps epsSteps r : Nat) :
    (is_random cfg ext false steps epsSteps r).1 = true ↔
      (steps < cfg.start_steps ∨
        (cfg.noisy_net = false ∧ ext.rand r < epsilonTrainGet cfg epsSteps)) := by
  unfold is_random
  by_cases h1 : steps < cfg.start_steps
  · simp [h1]
  · cases h2 : cfg.noisy_net
    · simp [h1, h2]
    · simp [h1, h2]

/-
Claim theorems.
-/

/-- C1: is_update returns true exactly when the global step counter is a
multiple of update_interval and at least start_steps; with the default
configuration (update_interval = 4, start_steps = 50000) it is true exactly
when steps is at least 50000 and divisible by 4. -/
theorem claim_is_update_iff (cfg : Config) (steps : Nat) :
    (is_update cfg steps = true ↔
      (steps % cfg.update_interval = 0 ∧ cfg.start_steps ≤ steps)) ∧
    (is_update cfgDefault steps = true ↔ (50000 ≤ steps ∧ steps % 4 = 0)) := by
  constructor
  · simp [is_update]
  · simp only [is_update, cfgDefault, Bool.and_eq_true, beq_iff_eq, decide_eq_true_eq]
    exact ⟨fun h => ⟨h.2, h.1⟩, fun h => ⟨h.2, h.1⟩⟩

/-- C2: the action-selection decision table.  In evaluation mode the chosen
action is the fresh environment sample exactly when the step counter is
below start_steps or the fresh uniform draw is below epsilon_eval, and the
greedy argmax of the online Q-values otherwise; in training mode it is the
fresh sample exactly when the step counter is below start_steps or
noisy-net is disabled and the draw is below the current annealed training
epsilon (so with noisy-net enabled and past start_steps the action is never
random), and the greedy argmax otherwise. -/
theorem claim_action_selection_table (cfg : Config) (ext : Ext)
    (online steps epsSteps obs r si : Nat) :
    (selectAction cfg ext true online steps epsSteps obs r si).1
      = (if steps < cfg.start_steps ∨ ext.rand r < cfg.epsilon_eval
         then ext.sampleAction si else listArgmax (ext.qvalues online obs)) ∧
    (selectAction cfg ext false online steps epsSteps obs r si).1
      = (if steps < cfg.start_steps ∨
            (cfg.noisy_net = false ∧ ext.rand r < epsilonTrainGet cfg epsSteps)
         then ext.sampleAction si else listArgmax (ext.qvalues online obs)) := by
  constructor
  · simp only [selectAction]
    split
    · next h =>
        rw [if_pos ((is_random_eval_iff cfg ext steps epsSteps r).mp h)]
        rfl
    · next h =>
        rw [if_neg (fun hc => h ((is_random_eval_iff cfg ext steps epsSteps r).mpr hc))]
        rfl
  · simp only [selectAction]
    split
    · next h =>
        rw [if_pos ((is_random_train_iff cfg ext steps epsSteps r).mp h)]
        rfl
    · next h =>
        rw [if_neg (fun hc => h ((is_random_train_iff cfg ext steps epsSteps r).mpr hc))]
        rfl

/-- C3 (counterexample): with episodes of exactly two environment steps and
an evaluation budget of num_eval_steps = 2, the first completed episode
already meets the budget (cumulative steps = 2 = num_eval_steps), yet the
sweep of the source runs a second episode, because the source breaks only
when the cumulative step count strictly exceeds the budget; the claim-side
loop, which stops as soon as the budget is met, completes one episode. -/
theorem claim_eval_sweep_budget_cex :
    (evalRunEpisode cfgC extC 0 0 0 (evalSweep0 stC)).num_steps = cfgC.num_eval_steps ∧
    (evalSweepOf cfgC extC stC).num_episodes = 2 ∧
    (evalSweepMeetsOf cfgC extC stC).num_episodes = 1 := by
  refine ⟨?_, ?_, ?_⟩ <;> decide

/-- C3 (amended): the evaluation sweep repeatedly runs full episodes,
checking the step budget only after the in-flight episode completes (the
do-while defining equation below), terminates once the cumulative number of
evaluation environment steps strictly exceeds the minimum budget
num_eval_steps, and reports the mean return equal to the sum of returns
over all completed episodes divided by the number of completed episodes. -/
theorem claim_eval_sweep_contract (cfg : Config) (ext : Ext) (s : AgentState) :
    cfg.num_eval_steps < (evalSweepOf cfg ext s).num_steps ∧
    (evalSweepOf cfg ext s).num_episodes = (evalSweepOf cfg ext s).returns.length ∧
    (evalSweepOf cfg ext s).total_return = (evalSweepOf cfg ext s).returns.sum ∧
    evalMean cfg ext s = (evalSweepOf cfg ext s).returns.sum
        / ((evalSweepOf cfg ext s).returns.length : Rat) ∧
    (∀ w : EvalSweep, evalSweepLoop cfg ext s.online s.steps s.epsilon_steps w
      = (if cfg.num_eval_steps
            < (evalRunEpisode cfg ext s.online s.steps s.epsilon_steps w).num_steps
         then evalRunEpisode cfg ext s.online s.steps s.epsilon_steps w
         else evalSweepLoop cfg ext s.online s.steps s.epsilon_steps
           (evalRunEpisode cfg ext s.online s.steps s.epsilon_steps w))) := by
  obtain ⟨h1, h2⟩ := evalSweepOf_inv cfg ext s
  refine ⟨evalSweepOf_num_steps cfg ext s, h1, h2, ?_,
    fun w => evalSweepLoop_eq cfg ext s.online s.steps s.epsilon_steps w⟩
  unfold evalMean
  rw [h1, h2]

/-- C4: each training episode increments the episode counter exactly once
and runs between 1 and max_episode_steps + 1 loop iterations; every
iteration appends exactly one transition to the replay memory, increments
the global step counter by exactly one and advances the epsilon schedule by
exactly one (the three advance in lockstep); on loop exit the episode is
done or the step cap is exceeded, and exactly one episode return is
recorded into the running return statistics. -/
theorem claim_train_episode_contract (cfg : Config) (ext : Ext) (s : AgentState) :
    (∃ n, 1 ≤ n ∧ n ≤ cfg.max_episode_steps + 1 ∧
      (train_episode cfg ext s).steps = s.steps + n ∧
      (train_episode cfg ext s).epsilon_steps = s.epsilon_steps + n ∧
      (∃ l : List Trans, l.length = n ∧
        (train_episode cfg ext s).memory = s.memory ++ l) ∧
      (∃ q : Rat, (train_episode cfg ext s).train_return = s.train_return ++ [q]) ∧
      (train_episode cfg ext s).episodes = s.episodes + 1) ∧
    ((trainEpisodeFull cfg ext s).done = true ∨
      cfg.max_episode_steps < (trainEpisodeFull cfg ext s).episode_steps) := by
  refine ⟨train_episode_delta cfg ext s, ?_⟩
  unfold trainEpisodeFull
  refine trainEpisodeIter_exit cfg ext _ _ ?_
  have h0 : (trainEp0 cfg ext s).episode_steps = 0 := rfl
  omega

/-- C5: the copy performed by update_target overwrites the target
parameters with the online parameters and leaves the online parameters
unchanged, and on every scheduler tick the target parameters end up equal
to the online parameters exactly when the step counter is a multiple of
target_update_interval, and are untouched otherwise. -/
theorem claim_target_sync (cfg : Config) (ext : Ext) (s : AgentState) :
    (update_target s).target = s.online ∧
    (update_target s).online = s.online ∧
    (train_step_interval cfg ext s).target
      = (if s.steps % cfg.target_update_interval = 0 then s.online else s.target) :=
  ⟨rfl, rfl, tsi_target cfg ext s⟩

/-- C6: after an evaluation sweep the best parameters are persisted exactly
when the mean return improves on the best score seen so far, in which case
the best score becomes that mean; the best score starts at minus infinity
and is non-decreasing across evaluate and across a whole run. -/
theorem claim_best_score_bookkeeping (cfg : Config) (ext : Ext) (s : AgentState) :
    ((evaluate cfg ext s).savedBest = s.savedBest + 1 ↔
      s.best_eval_score < ((evalMean cfg ext s : Rat) : WithBot Rat)) ∧
    (evaluate cfg ext s).best_eval_score
      = (if s.best_eval_score < ((evalMean cfg ext s : Rat) : WithBot Rat)
         then ((evalMean cfg ext s : Rat) : WithBot Rat) else s.best_eval_score) ∧
    s.best_eval_score ≤ (evaluate cfg ext s).best_eval_score ∧
    (∀ o t : Nat, (initAgent cfg o t).best_eval_score = ⊥) ∧
    s.best_eval_score ≤ (run cfg ext s).best_eval_score := by
  refine ⟨?_, ?_, evaluate_best_mono cfg ext s, fun o t => rfl, ?_⟩
  · unfold evaluate
    dsimp only
    split
    · next h => exact iff_of_true rfl h
    · next h => exact iff_of_false (by simp) h
  · unfold evaluate
    dsimp only
    split
    · next h => rfl
    · next h => rfl
  · unfold run
    exact runIter_best_mono cfg ext _ s

/-- C7: run returns only with the global step counter strictly above
num_steps, and it is the do-while loop that runs whole training episodes
and checks the counter only at episode boundaries. -/
theorem claim_run_postcondition (cfg : Config) (ext : Ext) (s : AgentState) :
    cfg.num_steps < (run cfg ext s).steps ∧
    run cfg ext s = (if cfg.num_steps < (train_episode cfg ext s).steps
        then train_episode cfg ext s
        else run cfg ext (train_episode cfg ext s)) := by
  constructor
  · unfold run
    refine runIter_post cfg ext _ s ?_ ?_ <;> omega
  · have hstep : run cfg ext s
        = (if cfg.num_steps < (train_episode cfg ext s).steps
           then train_episode cfg ext s
           else runIter cfg ext (cfg.num_steps + 1 - s.steps) (train_episode cfg ext s)) := rfl
    rw [hstep]
    by_cases hstop : cfg.num_steps < (train_episode cfg ext s).steps
    · rw [if_pos hstop, if_pos hstop]
    · rw [if_neg hstop, if_neg hstop]
      unfold run
      have hlt := train_episode_steps_lt cfg ext s
      refine runIter_congr cfg ext _ _ _ ?_ ?_ <;> omega

/-- C8: when prioritized replay is enabled, the beta-annealing step count
passed to the prioritized memory at construction is
(num_steps - start_steps) / update_interval; at the default configuration
with prioritized replay this is (50000000 - 50000) / 4 = 12487500. -/
theorem claim_per_beta_steps (cfg : Config) :
    (∀ o t : Nat, (initAgent cfg o t).memoryBeta
      = (if cfg.use_per then
          some (((cfg.num_steps : Rat) - (cfg.start_steps : Rat))
            / (cfg.update_interval : Rat))
         else none)) ∧
    (initAgent { cfgDefault with use_per := true } 0 0).memoryBeta
      = some ((12487500 : Rat)) := by
  refine ⟨fun o t => rfl, ?_⟩
  norm_num [initAgent, cfgDefault]

/-- C9: the evaluation sweep leaves the training state unchanged: replay
memory, global step counter, episode counter, epsilon schedule position and
running return statistics are all preserved, and the evaluation-mode random
decision does not depend on the position of the training epsilon
schedule. -/
theorem claim_evaluate_frame (cfg : Config) (ext : Ext) (s : AgentState) :
    (evaluate cfg ext s).memory = s.memory ∧
    (evaluate cfg ext s).steps = s.steps ∧
    (evaluate cfg ext s).episodes = s.episodes ∧
    (evaluate cfg ext s).epsilon_steps = s.epsilon_steps ∧
    (evaluate cfg ext s).train_return = s.train_return ∧
    (∀ steps t u r : Nat,
      is_random cfg ext true steps t r = is_random cfg ext true steps u r) := by
  refine ⟨evaluate_memory cfg ext s, evaluate_steps cfg ext s, evaluate_episodes cfg ext s,
    evaluate_epsilon_steps cfg ext s, evaluate_train_return cfg ext s, ?_⟩
  intro steps t u r
  unfold is_random
  split <;> simp

/-- C10: when the evaluation sweep loop exits, at least one episode has
completed, so the mean-return division total_return / num_episodes never
divides by zero, for every configuration (in particular every value of
num_eval_steps). -/
theorem claim_eval_mean_defined (cfg : Config) (ext : Ext) (s : AgentState) :
    1 ≤ (evalSweepOf cfg ext s).num_episodes :=
  evalSweepOf_num_episodes_pos cfg ext s

end FQF
